import Mathlib

/-!
Verification development for the Kirchhoff--Love thin-shell demo
`demos/kl-shell-svk/dynamic-tspline.py` (tIGAr).  The demo assembles, at
every time step, the nonlinear residual of a St. Venant--Kirchhoff shell
under generalized-alpha time integration with a penalty contact force.

The pointwise algebra of the script (shell kinematics, local Cartesian
transform, material law, contact penalty, residual assembly) is embedded
over the real numbers.  The spline library that the demo imports
(`tIGAr`, `tIGAr.timeIntegration`) is not part of the repository files, so
its interface is abstracted: the parametric gradient operator, the weight
field and the quadrature rule of `ExtractedSpline` become fields of a
`SplineOps` record, and the generalized-alpha blends and `rationalize`
are modelled from the specification text.
-/

namespace KLShell

noncomputable section

/-- Vectors in physical space, as in the three components of `as_vector`. -/
abbrev Vec3 := Fin 3 → ℝ

/-- 2x2 tensors on the parametric domain (metric, curvature, strain). -/
abbrev Mat2 := Matrix (Fin 2) (Fin 2) ℝ

/-- 3x3 matrices (the material matrix `D`). -/
abbrev Mat3 := Matrix (Fin 3) (Fin 3) ℝ

/-- 3x2 matrices: the parametric gradient `dxdxi` of a vector field. -/
abbrev Mat32 := Matrix (Fin 3) (Fin 2) ℝ

/-- `inner(u,v)` of UFL on 3-vectors: the Euclidean dot product. -/
def inner3 (u v : Vec3) : ℝ := u 0 * v 0 + u 1 * v 1 + u 2 * v 2

/-- `cross(u,v)` of UFL on 3-vectors. -/
def cross3 (u v : Vec3) : Vec3 :=
  ![u 1 * v 2 - u 2 * v 1, u 2 * v 0 - u 0 * v 2, u 0 * v 1 - u 1 * v 0]

/-- `unit(v) = v/sqrt(inner(v,v))`, the helper of line 130 of the demo. -/
def unit (v : Vec3) : Vec3 := fun i => v i / Real.sqrt (inner3 v v)

/-! ## Material model (demo lines 189--212) -/

/-- `voigt(T) = [T[0,0], T[1,1], 2*T[0,1]]` (demo line 192). -/
def voigt (T : Mat2) : Fin 3 → ℝ := ![T 0 0, T 1 1, 2 * T 0 1]

/-- The material matrix of demo line 200, with the two material `Constant`s
as parameters: `D = (E/(1-nu*nu)) * [[1,nu,0],[nu,1,0],[0,0,0.5*(1-nu)]]`. -/
def Dmat (Emod nu : ℝ) : Mat3 :=
  (Emod / (1 - nu * nu)) • !![1, nu, 0; nu, 1, 0; 0, 0, 0.5 * (1 - nu)]

/-- `E = Constant(3e4)` (demo line 196). -/
def E_const : ℝ := 3e4

/-- `nu = Constant(0.3)` (demo line 197). -/
def nu_const : ℝ := 0.3

/-- The material matrix with the demo constants substituted. -/
def Dconst : Mat3 := Dmat E_const nu_const

/-- `h_th = 0.03` (demo line 204). -/
def h_th : ℝ := 0.03

/-- `nBar = h_th*D*voigt(epsilonBar)` (demo line 207), as a function of the
local Cartesian strain tensor. -/
def nBar (T : Mat2) : Fin 3 → ℝ := fun i => h_th * Dconst.mulVec (voigt T) i

/-- `mBar = (h_th**3)*D*voigt(kappaBar)/12.0` (demo line 208). -/
def mBar (T : Mat2) : Fin 3 → ℝ := fun i => h_th ^ 3 * Dconst.mulVec (voigt T) i / 12

/-- The elastic potential energy density
`0.5*(inner(voigt(epsilonBar),nBar) + inner(voigt(kappaBar),mBar))`
(demo line 211, before multiplication by the measure `spline.dx`). -/
def WintDensity (eB kB : Mat2) : ℝ :=
  0.5 * (inner3 (voigt eB) (nBar eB) + inner3 (voigt kB) (mBar kB))

/-! Spec-side formulations of the material model, written from the words of
the specification (section 4.2) for comparison with the code. -/

/-- The specification's material matrix
`D = E/(1-nu^2) * [[1,nu,0],[nu,1,0],[0,0,(1-nu)/2]]`. -/
def DmatSpec (Emod nu : ℝ) : Mat3 :=
  (Emod / (1 - nu ^ 2)) • !![1, nu, 0; nu, 1, 0; 0, 0, (1 - nu) / 2]

/-- The specification's membrane stress resultant `h * D * eps_voigt`. -/
def nBarSpec (h Emod nu : ℝ) (eB : Mat2) : Fin 3 → ℝ :=
  fun i => h * (DmatSpec Emod nu).mulVec ![eB 0 0, eB 1 1, 2 * eB 0 1] i

/-- The specification's bending moment resultant `(h^3/12) * D * kappa_voigt`. -/
def mBarSpec (h Emod nu : ℝ) (kB : Mat2) : Fin 3 → ℝ :=
  fun i => (h ^ 3 / 12) * (DmatSpec Emod nu).mulVec ![kB 0 0, kB 1 1, 2 * kB 0 1] i

/-- The specification's elastic energy density
`(1/2)*(eps_voigt . nBar + kappa_voigt . mBar)`. -/
def energyDensitySpec (h Emod nu : ℝ) (eB kB : Mat2) : ℝ :=
  (1 / 2) * (inner3 ![eB 0 0, eB 1 1, 2 * eB 0 1] (nBarSpec h Emod nu eB)
    + inner3 ![kB 0 0, kB 1 1, 2 * kB 0 1] (mBarSpec h Emod nu kB))

/-! ## Contact penalty (demo lines 244--248) -/

/-- `PENALTY = Constant(1e8)` (demo line 245). -/
def PENALTY : ℝ := 1e8

/-- `gapFunction = conditional(lt(z,0), -z, 0)` (demo line 246), as a
function of the out-of-plane coordinate `z = x[2]`. -/
def gapFunction (z : ℝ) : ℝ := if z < 0 then -z else 0

/-- `contactForce = as_vector((0, 0, k*gapFunction))` (demo line 247), with
the penalty stiffness as a parameter; the demo instantiates `k = PENALTY`. -/
def contactForce (k z : ℝ) : Vec3 := ![0, 0, k * gapFunction z]

/-! ## The spline interface and the shell kinematics (demo lines 122--187) -/

/-- The interface of `ExtractedSpline` that the demo consumes (the
specification's "geometry provider", section 6): the parametric gradient
operator `parametricGrad`, the weight field, the reference map `F`, and the
quadrature rule behind the measure `spline.dx`. -/
structure SplineOps (P : Type) where
  pgrad : (P → Vec3) → P → Mat32
  w : P → ℝ
  F : P → Vec3
  quadPts : Finset P
  quadWt : P → ℝ

/-- Integration against the measure `spline.dx`, modelled as the quadrature
sum of the spline's rule. -/
def integrate {P : Type} (S : SplineOps P) (f : P → ℝ) : ℝ :=
  ∑ p in S.quadPts, S.quadWt p * f p

/-- Column `j` of a 3x2 matrix as a 3-vector, as in
`as_vector([dxdxi[0,j], dxdxi[1,j], dxdxi[2,j]])`. -/
def matCol (m : Mat32) (j : Fin 2) : Vec3 := ![m 0 j, m 1 j, m 2 j]

/-- First covariant basis vector `a0`, column 0 of `parametricGrad(x)`
(demo line 139). -/
def covBasis0 {P : Type} (S : SplineOps P) (x : P → Vec3) (p : P) : Vec3 :=
  matCol (S.pgrad x p) 0

/-- Second covariant basis vector `a1` (demo line 140). -/
def covBasis1 {P : Type} (S : SplineOps P) (x : P → Vec3) (p : P) : Vec3 :=
  matCol (S.pgrad x p) 1

/-- The unit normal field `a2 = unit(cross(a0,a1))` (demo line 141). -/
def normalField {P : Type} (S : SplineOps P) (x : P → Vec3) : P → Vec3 :=
  fun p => unit (cross3 (covBasis0 S x p) (covBasis1 S x p))

/-- The metric tensor `a` (demo lines 144--145). -/
def metricOf {P : Type} (S : SplineOps P) (x : P → Vec3) (p : P) : Mat2 :=
  !![inner3 (covBasis0 S x p) (covBasis0 S x p), inner3 (covBasis0 S x p) (covBasis1 S x p);
     inner3 (covBasis1 S x p) (covBasis0 S x p), inner3 (covBasis1 S x p) (covBasis1 S x p)]

/-- The curvature tensor `b = -[[inner(a_i, deriva2[:,j])]]` with
`deriva2 = parametricGrad(a2)` (demo lines 147--149). -/
def curvatureOf {P : Type} (S : SplineOps P) (x : P → Vec3) (p : P) : Mat2 :=
  -!![inner3 (covBasis0 S x p) (matCol (S.pgrad (normalField S x) p) 0),
      inner3 (covBasis0 S x p) (matCol (S.pgrad (normalField S x) p) 1);
      inner3 (covBasis1 S x p) (matCol (S.pgrad (normalField S x) p) 0),
      inner3 (covBasis1 S x p) (matCol (S.pgrad (normalField S x) p) 1)]

/-- `shellGeometry(x)` (demo lines 135--151): the tuple `(a0, a1, a2, a, b)`. -/
def shellGeometry {P : Type} (S : SplineOps P) (x : P → Vec3) :
    (P → Vec3) × (P → Vec3) × (P → Vec3) × (P → Mat2) × (P → Mat2) :=
  (covBasis0 S x, covBasis1 S x, normalField S x,
    fun p => metricOf S x p, fun p => curvatureOf S x p)

/-- `inv(a)` of UFL for the 2x2 metric: adjugate over determinant
(demo line 169). -/
def inv2 (m : Mat2) : Mat2 :=
  (1 / (m 0 0 * m 1 1 - m 0 1 * m 1 0)) • !![m 1 1, -m 0 1; -m 1 0, m 0 0]

/-- First local Cartesian (Gram--Schmidt) frame vector `e0 = unit(a0)`
(demo line 175). -/
def gsE0 (a0 : Vec3) : Vec3 := unit a0

/-- Second frame vector `e1 = unit(a1 - e0*inner(a1,e0))` (demo line 176). -/
def gsE1 (a0 a1 : Vec3) : Vec3 :=
  unit (fun i => a1 i - gsE0 a0 i * inner3 a1 (gsE0 a0))

/-- First contravariant basis vector `a0c = ac[0,0]*a0 + ac[0,1]*a1`
(demo line 170). -/
def contra0 (a : Mat2) (a0 a1 : Vec3) : Vec3 :=
  fun i => inv2 a 0 0 * a0 i + inv2 a 0 1 * a1 i

/-- Second contravariant basis vector `a1c` (demo line 171). -/
def contra1 (a : Mat2) (a0 a1 : Vec3) : Vec3 :=
  fun i => inv2 a 1 0 * a0 i + inv2 a 1 1 * a1 i

/-- The change-of-basis matrix `ea` of `cartesian` (demo lines 179--180). -/
def eaMat (a : Mat2) (a0 a1 : Vec3) : Mat2 :=
  !![inner3 (gsE0 a0) (contra0 a a0 a1), inner3 (gsE0 a0) (contra1 a a0 a1);
     inner3 (gsE1 a0 a1) (contra0 a a0 a1), inner3 (gsE1 a0 a1) (contra1 a a0 a1)]

/-- `cartesian(T, a, a0, a1) = ea*T*ea.T` (demo lines 165--182). -/
def cartesian (T a : Mat2) (a0 a1 : Vec3) : Mat2 :=
  eaMat a a0 a1 * T * (eaMat a a0 a1).transpose

/-- The current configuration `x = X + y_alpha` (demo line 127), with the
reference map `X = spline.F` and a given physical displacement field. -/
def currentConfig {P : Type} (S : SplineOps P) (ya : P → Vec3) : P → Vec3 :=
  fun p i => S.F p i + ya p i

/-- Membrane strain `epsilon = 0.5*(a - A)` (demo line 159). -/
def epsilonOf {P : Type} (S : SplineOps P) (ya : P → Vec3) (p : P) : Mat2 :=
  (0.5 : ℝ) • (metricOf S (currentConfig S ya) p - metricOf S S.F p)

/-- Curvature change `kappa = B - b` (demo line 160). -/
def kappaOf {P : Type} (S : SplineOps P) (ya : P → Vec3) (p : P) : Mat2 :=
  curvatureOf S S.F p - curvatureOf S (currentConfig S ya) p

/-- `epsilonBar = cartesian(epsilon, A, A0, A1)` (demo line 186). -/
def epsilonBarOf {P : Type} (S : SplineOps P) (ya : P → Vec3) (p : P) : Mat2 :=
  cartesian (epsilonOf S ya p) (metricOf S S.F p) (covBasis0 S S.F p) (covBasis1 S S.F p)

/-- `kappaBar = cartesian(kappa, A, A0, A1)` (demo line 187). -/
def kappaBarOf {P : Type} (S : SplineOps P) (ya : P → Vec3) (p : P) : Mat2 :=
  cartesian (kappaOf S ya p) (metricOf S S.F p) (covBasis0 S S.F p) (covBasis1 S S.F p)

/-- A concrete flat configuration on a one-point parametric domain, whose
parametric gradient operator returns the constant frame
`(1,0,0), (0,1,0)`: used to instantiate theorems with hypotheses. -/
def Sflat : SplineOps Unit :=
  ⟨fun _ _ => !![1, 0; 0, 1; 0, 0], fun _ => 1, fun _ => ![0, 0, 0], {()}, fun _ => 1⟩

/-- A degenerate one-point configuration whose parametric gradient operator
is identically zero: every displacement field then produces the same strain
and curvature change. -/
def Szero : SplineOps Unit :=
  ⟨fun _ _ => 0, fun _ => 1, fun _ => ![0, 0, 0], {()}, fun _ => 1⟩

/-- A nonzero displacement field on the one-point domain. -/
def yaOne : Unit → Vec3 := fun _ => ![1, 1, 1]

/-- The zero displacement field on the one-point domain. -/
def yaZero : Unit → Vec3 := fun _ => ![0, 0, 0]

/-! ## Generalized-alpha coefficients -/

/-- Modelled from the spec: `GeneralizedAlphaIntegrator` lives in
`tIGAr.timeIntegration`, which is not under the repository files; section
4.3 of the specification fixes `alpha_m = (2 - rhoInf)/(1 + rhoInf)`. -/
def ALPHA_M (rhoInf : ℝ) : ℝ := (2 - rhoInf) / (1 + rhoInf)

/-- Modelled from the spec: `alpha_f = 1/(1 + rhoInf)` (section 4.3). -/
def ALPHA_F (rhoInf : ℝ) : ℝ := 1 / (1 + rhoInf)

/-- Modelled from the spec: `gamma = 1/2 + alpha_m - alpha_f` (section 4.3). -/
def GAMMA (rhoInf : ℝ) : ℝ := 1 / 2 + ALPHA_M rhoInf - ALPHA_F rhoInf

/-- Modelled from the spec: `beta = (1/4)*(1 + alpha_m - alpha_f)^2`
(section 4.3). -/
def BETA (rhoInf : ℝ) : ℝ := 1 / 4 * (1 + ALPHA_M rhoInf - ALPHA_F rhoInf) ^ 2

/-! ## Rationalization, blends and the residual (demo lines 99--255) -/

/-- Modelled from the spec: `spline.rationalize` (tIGAr library code, not
under the repository files) — "physical value = homogeneous value / weight"
(specification glossary), for a scalar family indexed by `ι`. -/
def rationalizeFam {ι : Type} (w u : ι → ℝ) : ι → ℝ := fun i => u i / w i

/-- Modelled from the spec: the alpha-level blend of `timeInt.x_alpha()`,
`d_alpha = (1 - alpha_f) d_n + alpha_f d_(n+1)` (specification section 4.3);
the same linear form with `alpha_m` gives the acceleration blend `a_alpha`. -/
def xAlphaFam {ι : Type} (alphaF : ℝ) (xold xnew : ι → ℝ) : ι → ℝ :=
  fun i => (1 - alphaF) * xold i + alphaF * xnew i

/-- Modelled from the spec: the Newmark-consistent new acceleration
`a_(n+1) = (d_(n+1) - d_n - dt*v_n - dt^2*(1/2 - beta)*a_n)/(beta*dt^2)`
(specification section 4.3). -/
def xddotNewFam {ι : Type} (beta dt : ℝ) (xnew xold vold aold : ι → ℝ) : ι → ℝ :=
  fun i => (xnew i - xold i - dt * vold i - dt ^ 2 * (1 / 2 - beta) * aold i) / (beta * dt ^ 2)

/-- The Gateaux derivative `derivative(W, y, z)` of UFL for scalar families:
the derivative at 0 of `t ↦ W(y + t z)`. -/
def gateaux {ι : Type} (W : (ι → ℝ) → ℝ) (y z : ι → ℝ) : ℝ :=
  deriv (fun t : ℝ => W (fun i => y i + t * z i)) 0

/-- Modelled from the spec: rationalization of a vector field — every
component divided by the weight at the same parametric point. -/
def rationalizeVec {P : Type} (S : SplineOps P) (u : P → Vec3) : P → Vec3 :=
  fun p i => u p i / S.w p

/-- `derivative(Wint, y_hom, z_hom)` for a functional of a vector field. -/
def gateauxVec {P : Type} (W : (P → Vec3) → ℝ) (y z : P → Vec3) : ℝ :=
  deriv (fun t : ℝ => W (fun p i => y p i + t * z p i)) 0

/-- `y_alpha = spline.rationalize(timeInt.x_alpha())` (demo line 118), as a
function of the old and the unknown homogeneous displacement. -/
def yAlphaOf {P : Type} (S : SplineOps P) (alphaF : ℝ) (yoldh yh : P → Vec3) : P → Vec3 :=
  rationalizeVec S (fun p => xAlphaFam alphaF (yoldh p) (yh p))

/-- `yddot_alpha = spline.rationalize(timeInt.xddot_alpha())` (demo line
120): the `alpha_m` blend of the old and the Newmark-consistent new
acceleration, rationalized. -/
def yddotAlphaOf {P : Type} (S : SplineOps P) (alphaM beta dt : ℝ)
    (yh yoldh voldh aoldh : P → Vec3) : P → Vec3 :=
  rationalizeVec S (fun p =>
    xAlphaFam alphaM (aoldh p) (xddotNewFam beta dt (yh p) (yoldh p) (voldh p) (aoldh p)))

/-- The total elastic potential energy `Wint` (demo lines 210--212), as a
functional of the physical alpha-level displacement. -/
def Wint {P : Type} (S : SplineOps P) (ya : P → Vec3) : ℝ :=
  integrate S (fun p => WintDensity (epsilonBarOf S ya p) (kappaBarOf S ya p))

/-- `DENS = Constant(10.0)` (demo line 239). -/
def DENS : ℝ := 10

/-- The inertial contribution `dWmass = DENS*h_th*inner(yddot_alpha,z)*dx`
(demo line 242), with the physical test function `z = rationalize(z_hom)`. -/
def dWmass {P : Type} (S : SplineOps P) (alphaM beta dt : ℝ)
    (yh yoldh voldh aoldh zh : P → Vec3) : ℝ :=
  integrate S (fun p => DENS * h_th *
    inner3 (yddotAlphaOf S alphaM beta dt yh yoldh voldh aoldh p) (rationalizeVec S zh p))

/-- The internal virtual work
`dWint = Constant(1/alpha_f)*derivative(Wint, y_hom, z_hom)` (demo line 220),
where `Wint` depends on `y_hom` through the alpha blend and rationalization. -/
def dWint {P : Type} (S : SplineOps P) (alphaF : ℝ) (yoldh yh zh : P → Vec3) : ℝ :=
  (1 / alphaF) * gateauxVec (fun u => Wint S (yAlphaOf S alphaF yoldh u)) yh zh

/-- The external virtual work `dWext = inner(-contactForce, z)*dx` (demo line
248), with the contact force evaluated at the out-of-plane coordinate `x[2]`
of the current configuration `x = X + y_alpha`. -/
def dWext {P : Type} (S : SplineOps P) (alphaF : ℝ) (yoldh yh zh : P → Vec3) : ℝ :=
  integrate S (fun p =>
    inner3 (fun i => -contactForce PENALTY (currentConfig S (yAlphaOf S alphaF yoldh yh) p 2) i)
      (rationalizeVec S zh p))

/-- The full nonlinear residual `res = dWmass + dWint + dWext` (demo line
251). -/
def res {P : Type} (S : SplineOps P) (alphaF alphaM beta dt : ℝ)
    (yh yoldh voldh aoldh zh : P → Vec3) : ℝ :=
  dWmass S alphaM beta dt yh yoldh voldh aoldh zh
    + dWint S alphaF yoldh yh zh + dWext S alphaF yoldh yh zh

/-! ## Concrete data for the derivative-equivalence claim -/

/-- A constant weight field with value 2 on a one-point index set. -/
def wEx : Unit → ℝ := fun _ => 2

/-- A zero old displacement on the one-point index set. -/
def yoldEx : Unit → ℝ := fun _ => 0

/-- A concrete homogeneous displacement. -/
def yhEx : Unit → ℝ := fun _ => 4

/-- A concrete homogeneous test direction. -/
def zhEx : Unit → ℝ := fun _ => 6

/-- The quadratic energy `f(x) = x^2/2` used as the sanity check in the
demo's comment block (lines 223--235). -/
def Fquad : (Unit → ℝ) → ℝ := fun v => v () ^ 2 / 2

/-! ## The script's control flow (demo lines 40--58, 285--315) -/

/-- The externally visible actions of the script, in program order: the
error report of lines 44--47, the library constructions of lines 58, 63, 79
and 89, and the nonlinear solves of the time-step loop at line 285. -/
inductive ScriptEvent
  | reportMissingFile
  | buildControlMesh
  | buildSplineGenerator
  | writeExtraction
  | buildExtractedSpline
  | solveStep (i : ℕ)
  deriving DecidableEq

/-- `range(0,50)` of the time-step loop (demo line 285). -/
def NUM_STEPS : ℕ := 50

/-- The trace of the script as a function of whether the required data file
`sphere.iga` exists: when it does not, lines 43--48 print an error and call
`exit()` before any solver state is constructed; otherwise the preprocessing
constructions run and then `NUM_STEPS` time steps are solved. -/
def scriptTrace (fileExists : Bool) : List ScriptEvent :=
  if fileExists then
    [ScriptEvent.buildControlMesh, ScriptEvent.buildSplineGenerator,
      ScriptEvent.writeExtraction, ScriptEvent.buildExtractedSpline]
      ++ (List.range NUM_STEPS).map ScriptEvent.solveStep
  else [ScriptEvent.reportMissingFile]

end

/-! ## Theorems for the material model, contact penalty and coefficients -/

/-- C6: for every local-Cartesian strain and curvature change, the demo's
stress resultants and elastic energy density agree exactly with the
specification's formulas `nBar = h*D*eps_voigt`, `mBar = (h^3/12)*D*kappa_voigt`
and `energy = (1/2)*(eps_voigt . nBar + kappa_voigt . mBar)`, where `D` is the
plane-stress matrix at the demo's constants `E = 3e4`, `nu = 0.3`, and the
Voigt form is `[T11, T22, 2*T12]`. -/
theorem C6_stress_resultants (eB kB : Mat2) :
    nBar eB = nBarSpec h_th 30000 (3 / 10) eB
    ∧ mBar kB = mBarSpec h_th 30000 (3 / 10) kB
    ∧ WintDensity eB kB = energyDensitySpec h_th 30000 (3 / 10) eB kB := by
  have hD : Dconst = DmatSpec 30000 (3 / 10) := by
    unfold Dconst Dmat DmatSpec E_const nu_const
    norm_num
  refine ⟨?_, ?_, ?_⟩
  · funext i
    simp only [nBar, nBarSpec, hD, voigt]
  · funext i
    simp only [mBar, mBarSpec, hD, voigt]
    ring
  · simp only [WintDensity, energyDensitySpec, nBarSpec, mBarSpec, nBar, mBar, hD, voigt,
      inner3, Matrix.cons_val_zero, Matrix.cons_val_one, Matrix.head_cons,
      Matrix.cons_val_two, Matrix.tail_cons]
    ring

/-- C7: for every Young's modulus `E > 0` and Poisson ratio `nu` in the open
interval `(-1, 1/2)`, the material matrix `D = E/(1-nu^2) *
[[1,nu,0],[nu,1,0],[0,0,(1-nu)/2]]` of the demo is symmetric and
positive-definite. -/
theorem C7_material_matrix_posdef (Emod nu : ℝ) (hE : 0 < Emod)
    (h1 : -1 < nu) (h2 : nu < 1 / 2) :
    (Dmat Emod nu).IsSymm ∧
      ∀ v : Fin 3 → ℝ, v ≠ 0 → 0 < inner3 v ((Dmat Emod nu).mulVec v) := by
  have hnn : 0 < 1 - nu * nu := by nlinarith
  constructor
  · unfold Matrix.IsSymm
    ext i j
    fin_cases i <;> fin_cases j <;>
      simp [Dmat, Matrix.transpose_apply, Matrix.smul_apply]
  · intro v hv
    have hq : inner3 v ((Dmat Emod nu).mulVec v) =
        Emod / (1 - nu * nu) *
          (v 0 ^ 2 + 2 * nu * v 0 * v 1 + v 1 ^ 2 + (1 - nu) / 2 * v 2 ^ 2) := by
      simp [Dmat, Matrix.mulVec, Matrix.dotProduct, Fin.sum_univ_three, inner3,
        Matrix.smul_apply]
      ring
    have hc : 0 < Emod / (1 - nu * nu) := div_pos hE hnn
    have hex : v 0 ≠ 0 ∨ v 1 ≠ 0 ∨ v 2 ≠ 0 := by
      by_contra hcon
      push_neg at hcon
      exact hv (funext fun i => by fin_cases i <;> simp [hcon.1, hcon.2.1, hcon.2.2])
    rw [hq]
    have hpos : 0 < v 0 ^ 2 + 2 * nu * v 0 * v 1 + v 1 ^ 2 + (1 - nu) / 2 * v 2 ^ 2 := by
      rcases hex with h0 | h1' | h2'
      · have hs : 0 < v 0 ^ 2 := by positivity
        nlinarith [sq_nonneg (v 1 + nu * v 0), sq_nonneg (v 2), mul_pos hnn hs]
      · have hs : 0 < v 1 ^ 2 := by positivity
        nlinarith [sq_nonneg (v 0 + nu * v 1), sq_nonneg (v 2), mul_pos hnn hs]
      · have hs : 0 < v 2 ^ 2 := by positivity
        nlinarith [sq_nonneg (v 0 + nu * v 1), sq_nonneg (v 1), mul_pos hnn hs,
          mul_nonneg (le_of_lt hnn) (sq_nonneg (v 1))]
    exact mul_pos hc hpos

/-- C7 witness: the theorem applied at `E = 1`, `nu = 0`, and the vector
`(1,2,3)`, with each hypothesis discharged there. -/
theorem C7_witness :
    (0 : ℝ) < 1 ∧ (Dmat 1 0).IsSymm ∧
      0 < inner3 ![1, 2, 3] ((Dmat 1 0).mulVec ![1, 2, 3]) := by
  have h := C7_material_matrix_posdef 1 0 (by norm_num) (by norm_num) (by norm_num)
  exact ⟨by norm_num, h.1, h.2 ![1, 2, 3] (by
    intro hcon
    have h0 := congrFun hcon 0
    norm_num at h0)⟩

/-- C5: the gap function of the demo vanishes for `z >= 0` and equals `-z`
for `z < 0`; the contact force is `(0, 0, k*gap(z))`, and it scales linearly
in the penalty stiffness and in the penetration depth. -/
theorem C5_gap_contact (k z : ℝ) :
    (0 ≤ z → gapFunction z = 0)
    ∧ (z < 0 → gapFunction z = -z)
    ∧ contactForce k z = ![0, 0, k * gapFunction z]
    ∧ (∀ c : ℝ, contactForce (c * k) z = fun i => c * contactForce k z i)
    ∧ (∀ c d : ℝ, 0 ≤ c → 0 ≤ d → gapFunction (-(c * d)) = c * gapFunction (-d))
    ∧ (∀ k0 d : ℝ, 0 ≤ k0 → 0 ≤ d → |contactForce k0 (-d) 2| = k0 * d) := by
  refine ⟨fun h => if_neg (not_lt.2 h), fun h => if_pos h, rfl, ?_, ?_, ?_⟩
  · intro c
    funext i
    fin_cases i <;> simp [contactForce, mul_assoc]
  · intro c d hc hd
    rcases eq_or_lt_of_le hd with hd0 | hd0
    · simp [gapFunction, ← hd0]
    rcases eq_or_lt_of_le hc with hc0 | hc0
    · subst hc0
      unfold gapFunction
      rw [if_neg (by simp : ¬(-((0 : ℝ) * d) < 0))]
      simp
    · unfold gapFunction
      rw [if_pos (by nlinarith : -(c * d) < 0), if_pos (by linarith : -d < 0)]
      ring
  · intro k0 d hk0 hd
    have hcf : contactForce k0 (-d) 2 = k0 * gapFunction (-d) := by
      simp [contactForce]
    rcases eq_or_lt_of_le hd with hd0 | hd0
    · rw [hcf, ← hd0]
      simp [gapFunction]
    · have hgap : gapFunction (-d) = d := by
        unfold gapFunction
        rw [if_pos (by linarith : -d < 0)]
        ring
      rw [hcf, hgap, abs_of_nonneg (mul_nonneg hk0 hd)]

/-- C3 counterexample: at `rhoInf = 1` the specification's own formulas give
`alpha_m = alpha_f = 1/2`, not `alpha_m = alpha_f = 1` as the claim states. -/
theorem C3_counterexample :
    ALPHA_M 1 = 1 / 2 ∧ ALPHA_F 1 = 1 / 2
    ∧ ¬(ALPHA_M 1 = 1 ∧ ALPHA_F 1 = 1) := by
  norm_num [ALPHA_M, ALPHA_F]

/-- C3 (amended): with the coefficients fixed by `alpha_m = (2-rho)/(1+rho)`,
`alpha_f = 1/(1+rho)`, `gamma = 1/2 + alpha_m - alpha_f`,
`beta = (1/4)*(1 + alpha_m - alpha_f)^2`, setting `rhoInf = 1` yields
`alpha_m = alpha_f = 1/2`, `gamma = 1/2` and `beta = 1/4` (the trapezoidal
Newmark rule, in the convention where alpha weights the new state in the
blend `d_alpha = (1-alpha_f) d_n + alpha_f d_(n+1)`). -/
theorem C3_coefficients_at_rho_one :
    ALPHA_M 1 = 1 / 2 ∧ ALPHA_F 1 = 1 / 2 ∧ ALPHA_M 1 = ALPHA_F 1
    ∧ GAMMA 1 = 1 / 2 ∧ BETA 1 = 1 / 4 := by
  norm_num [ALPHA_M, ALPHA_F, GAMMA, BETA]

/-- C4: for any non-degenerate reference configuration, when the displacement
is identically zero the current configuration equals the reference map, the
strain `epsilon = 0.5*(a - A)` and the curvature change `kappa = B - b`
vanish, and the local Cartesian transform maps them to the zero tensor, so
`epsilonBar = 0` and `kappaBar = 0` exactly. -/
theorem C4_zero_displacement {P : Type} (S : SplineOps P) (p : P)
    (hA : (metricOf S S.F p).det ≠ 0) :
    currentConfig S (fun _ _ => 0) = S.F
    ∧ epsilonOf S (fun _ _ => 0) p = 0
    ∧ kappaOf S (fun _ _ => 0) p = 0
    ∧ epsilonBarOf S (fun _ _ => 0) p = 0
    ∧ kappaBarOf S (fun _ _ => 0) p = 0 := by
  have hx : currentConfig S (fun _ _ => 0) = S.F := by
    funext q i
    simp [currentConfig]
  have he : epsilonOf S (fun _ _ => 0) p = 0 := by
    unfold epsilonOf
    rw [hx]
    simp
  have hk : kappaOf S (fun _ _ => 0) p = 0 := by
    unfold kappaOf
    rw [hx]
    simp
  refine ⟨hx, he, hk, ?_, ?_⟩
  · unfold epsilonBarOf
    rw [he]
    unfold cartesian
    rw [Matrix.mul_zero, Matrix.zero_mul]
  · unfold kappaBarOf
    rw [hk]
    unfold cartesian
    rw [Matrix.mul_zero, Matrix.zero_mul]

/-- C4 witness: the theorem applied to the concrete flat one-point
configuration, whose reference metric is the identity (determinant 1). -/
theorem C4_witness :
    currentConfig Sflat (fun _ _ => 0) = Sflat.F
    ∧ epsilonOf Sflat (fun _ _ => 0) () = 0
    ∧ kappaOf Sflat (fun _ _ => 0) () = 0
    ∧ epsilonBarOf Sflat (fun _ _ => 0) () = 0
    ∧ kappaBarOf Sflat (fun _ _ => 0) () = 0 :=
  C4_zero_displacement Sflat () (by
    have hm : metricOf Sflat Sflat.F () = !![1, 0; 0, 1] := by
      ext i j
      fin_cases i <;> fin_cases j <;>
        norm_num [metricOf, covBasis0, covBasis1, matCol, inner3, Sflat,
          Matrix.vecHead, Matrix.vecTail]
    rw [hm, Matrix.det_fin_two]
    norm_num)

/-- C10: the local Cartesian transform of both the strain and the curvature
change is performed in the reference frame: `epsilonBar` and `kappaBar` equal
`cartesian` applied with the reference metric `A` and reference basis
`A0, A1`, and consequently they depend on the deformed configuration only
through the strain and curvature-change tensors, never through the deformed
metric or basis. -/
theorem C10_reference_frame {P : Type} (S : SplineOps P) (ya1 ya2 : P → Vec3) (p : P)
    (he : epsilonOf S ya1 p = epsilonOf S ya2 p)
    (hk : kappaOf S ya1 p = kappaOf S ya2 p) :
    epsilonBarOf S ya1 p
      = cartesian (epsilonOf S ya1 p) (metricOf S S.F p) (covBasis0 S S.F p) (covBasis1 S S.F p)
    ∧ kappaBarOf S ya1 p
      = cartesian (kappaOf S ya1 p) (metricOf S S.F p) (covBasis0 S S.F p) (covBasis1 S S.F p)
    ∧ epsilonBarOf S ya1 p = epsilonBarOf S ya2 p
    ∧ kappaBarOf S ya1 p = kappaBarOf S ya2 p := by
  refine ⟨rfl, rfl, ?_, ?_⟩
  · unfold epsilonBarOf
    rw [he]
  · unfold kappaBarOf
    rw [hk]

/-- C10 witness: on the degenerate one-point configuration both the nonzero
and the zero displacement fields give the same strain and curvature change,
so the theorem yields equal local Cartesian tensors. -/
theorem C10_witness :
    epsilonBarOf Szero yaOne () = epsilonBarOf Szero yaZero ()
    ∧ kappaBarOf Szero yaOne () = kappaBarOf Szero yaZero () := by
  have he : epsilonOf Szero yaOne () = epsilonOf Szero yaZero () := rfl
  have hk : kappaOf Szero yaOne () = kappaOf Szero yaZero () := rfl
  exact ⟨(C10_reference_frame Szero yaOne yaZero () he hk).2.2.1,
    (C10_reference_frame Szero yaOne yaZero () he hk).2.2.2⟩

/-- C1: the assembled residual is exactly the sum of the inertial term
`density * thickness * inner(acceleration_alpha, z)` integrated with the
spline quadrature, the internal virtual work (the `1/alpha_f`-scaled Gateaux
derivative of the elastic energy with respect to the homogeneous
displacement), and the external virtual work of the contact penalty, the
latter evaluated at the alpha-blended configuration `x = X + y_alpha`. -/
theorem C1_residual_sum {P : Type} (S : SplineOps P) (alphaF alphaM beta dt : ℝ)
    (yh yoldh voldh aoldh zh : P → Vec3) :
    res S alphaF alphaM beta dt yh yoldh voldh aoldh zh =
      integrate S (fun p => DENS * h_th *
          inner3 (yddotAlphaOf S alphaM beta dt yh yoldh voldh aoldh p) (rationalizeVec S zh p))
      + (1 / alphaF) * gateauxVec (fun u => Wint S (yAlphaOf S alphaF yoldh u)) yh zh
      + integrate S (fun p =>
          inner3 (fun i => -contactForce PENALTY (S.F p 2 + yAlphaOf S alphaF yoldh yh p 2) i)
            (rationalizeVec S zh p))
    ∧ currentConfig S (yAlphaOf S alphaF yoldh yh)
        = fun p i => S.F p i + yAlphaOf S alphaF yoldh yh p i :=
  ⟨rfl, rfl⟩

/-- C9: the contact contribution enters the residual with a negative sign:
the residual equals `dWmass + dWint` minus the integral of
`PENALTY * gap(x[2]) * z[2]`, and whenever the out-of-plane coordinate of the
current configuration is everywhere nonnegative the external virtual work
vanishes identically. -/
theorem C9_contact_sign {P : Type} (S : SplineOps P) (alphaF alphaM beta dt : ℝ)
    (yh yoldh voldh aoldh zh : P → Vec3) :
    res S alphaF alphaM beta dt yh yoldh voldh aoldh zh =
      dWmass S alphaM beta dt yh yoldh voldh aoldh zh + dWint S alphaF yoldh yh zh
        - integrate S (fun p =>
            PENALTY * gapFunction (currentConfig S (yAlphaOf S alphaF yoldh yh) p 2)
              * rationalizeVec S zh p 2)
    ∧ ((∀ p : P, 0 ≤ currentConfig S (yAlphaOf S alphaF yoldh yh) p 2) →
        dWext S alphaF yoldh yh zh = 0) := by
  constructor
  · have hext : dWext S alphaF yoldh yh zh =
        - integrate S (fun p =>
            PENALTY * gapFunction (currentConfig S (yAlphaOf S alphaF yoldh yh) p 2)
              * rationalizeVec S zh p 2) := by
      unfold dWext integrate
      rw [← Finset.sum_neg_distrib]
      apply Finset.sum_congr rfl
      intro p _
      simp only [inner3, contactForce, Matrix.cons_val_zero, Matrix.cons_val_one,
        Matrix.head_cons, Matrix.cons_val_two, Matrix.tail_cons]
      ring
    unfold res
    rw [hext]
    ring
  · intro h
    unfold dWext integrate
    apply Finset.sum_eq_zero
    intro p _
    have hg : gapFunction (currentConfig S (yAlphaOf S alphaF yoldh yh) p 2) = 0 :=
      if_neg (not_lt.2 (h p))
    simp [inner3, contactForce, hg]

/-- C2: differentiating an energy functional through the homogeneous
(weight-scaled) representation in a homogeneous test direction equals
differentiating through the physical (divided-by-weight) representation in
the physical test direction, for any functional and strictly positive weight
field; consequently `(1/alpha_f) * derivative(W, y_hom, z_hom)`, with the
alpha blend inside, equals the Gateaux derivative of the energy with respect
to the physical alpha-level displacement in the physical direction. -/
theorem C2_hom_physical_derivative {ι : Type} (w yoldh yh zh : ι → ℝ)
    (alphaF dW : ℝ) (W : (ι → ℝ) → ℝ)
    (hw : ∀ i, 0 < w i) (ha : alphaF ≠ 0)
    (hW : HasDerivAt
      (fun s : ℝ => W (fun i => rationalizeFam w (xAlphaFam alphaF yoldh yh) i
        + s * rationalizeFam w zh i)) dW 0) :
    (∀ F0 : (ι → ℝ) → ℝ,
      gateaux (fun u => F0 (rationalizeFam w u)) yh zh
        = gateaux F0 (rationalizeFam w yh) (rationalizeFam w zh))
    ∧ (1 / alphaF) *
        gateaux (fun u => W (rationalizeFam w (xAlphaFam alphaF yoldh u))) yh zh = dW := by
  constructor
  · intro F0
    unfold gateaux
    congr 1
    funext t
    show F0 (rationalizeFam w fun i => yh i + t * zh i)
        = F0 fun i => rationalizeFam w yh i + t * rationalizeFam w zh i
    congr 1
    funext i
    simp only [rationalizeFam]
    rw [add_div, mul_div_assoc]
  · have hfun : (fun t : ℝ =>
        W (rationalizeFam w (xAlphaFam alphaF yoldh (fun i => yh i + t * zh i))))
        = fun t : ℝ => W (fun i => rationalizeFam w (xAlphaFam alphaF yoldh yh) i
            + alphaF * t * rationalizeFam w zh i) := by
      funext t
      congr 1
      funext i
      simp only [rationalizeFam, xAlphaFam]
      rw [show (1 - alphaF) * yoldh i + alphaF * (yh i + t * zh i)
          = ((1 - alphaF) * yoldh i + alphaF * yh i) + alphaF * t * zh i by ring,
        add_div, mul_div_assoc]
    have hlin : HasDerivAt (fun t : ℝ => alphaF * t) alphaF 0 := by
      simpa using (hasDerivAt_id (0 : ℝ)).const_mul alphaF
    have hW0 : HasDerivAt
        (fun s : ℝ => W (fun i => rationalizeFam w (xAlphaFam alphaF yoldh yh) i
          + s * rationalizeFam w zh i)) dW ((fun t : ℝ => alphaF * t) 0) := by
      simpa using hW
    have hcomp := HasDerivAt.comp (0 : ℝ) hW0 hlin
    have hderiv : deriv (fun t : ℝ =>
        W (fun i => rationalizeFam w (xAlphaFam alphaF yoldh yh) i
          + alphaF * t * rationalizeFam w zh i)) 0 = dW * alphaF := by
      have h2 := hcomp.deriv
      simpa [Function.comp] using h2
    have hg : gateaux (fun u => W (rationalizeFam w (xAlphaFam alphaF yoldh u))) yh zh
        = dW * alphaF := by
      show deriv (fun t : ℝ =>
        W (rationalizeFam w (xAlphaFam alphaF yoldh (fun i => yh i + t * zh i)))) 0 = dW * alphaF
      rw [hfun]
      exact hderiv
    rw [hg]
    field_simp

/-- C2 witness: the demo's own sanity check `f(x) = x^2/2` on a one-point
index set, with weight 2, homogeneous displacement 4, homogeneous direction
6 and `alpha_f = 1/2`: the physical point is 1, the physical direction 3, and
the scaled homogeneous Gateaux derivative is `f'(1)*3 = 3`. -/
theorem C2_witness :
    (0 : ℝ) < 2 ∧
    (1 / (1 / 2 : ℝ)) *
      gateaux (fun u => Fquad (rationalizeFam wEx (xAlphaFam (1 / 2) yoldEx u))) yhEx zhEx
      = 3 := by
  have hbase : rationalizeFam wEx (xAlphaFam (1 / 2 : ℝ) yoldEx yhEx) () = 1 := by
    norm_num [rationalizeFam, xAlphaFam, wEx, yoldEx, yhEx]
  have hz : rationalizeFam wEx zhEx () = 3 := by
    norm_num [rationalizeFam, wEx, zhEx]
  have h1 : HasDerivAt (fun s : ℝ =>
      rationalizeFam wEx (xAlphaFam (1 / 2 : ℝ) yoldEx yhEx) ()
        + s * rationalizeFam wEx zhEx ()) (rationalizeFam wEx zhEx ()) 0 := by
    simpa using ((hasDerivAt_id (0 : ℝ)).mul_const
      (rationalizeFam wEx zhEx ())).const_add
      (rationalizeFam wEx (xAlphaFam (1 / 2 : ℝ) yoldEx yhEx) ())
  have h3 : HasDerivAt (fun s : ℝ =>
      (rationalizeFam wEx (xAlphaFam (1 / 2 : ℝ) yoldEx yhEx) ()
        + s * rationalizeFam wEx zhEx ()) ^ 2 / 2) 3 0 := by
    have h2 := (h1.pow 2).div_const 2
    convert h2 using 1
    rw [hbase, hz]
    norm_num
  exact ⟨by norm_num,
    (C2_hom_physical_derivative wEx yoldEx yhEx zhEx (1 / 2) 3 Fquad
      (fun i => by norm_num [wEx]) (by norm_num) h3).2⟩

/-- C8: when the required data file is missing the script's trace is the
error report alone: no control mesh, no extracted spline and no time step is
ever reached, so the program fails fast before constructing any solver
state. -/
theorem C8_missing_file_fail_fast :
    scriptTrace false = [ScriptEvent.reportMissingFile]
    ∧ (∀ i : ℕ, ScriptEvent.solveStep i ∉ scriptTrace false)
    ∧ ScriptEvent.buildControlMesh ∉ scriptTrace false
    ∧ ScriptEvent.buildExtractedSpline ∉ scriptTrace false := by
  refine ⟨rfl, ?_, ?_, ?_⟩ <;> simp [scriptTrace]

end KLShell
